import Mathlib

/-!
Verification of the chunked multipart upload coordinator of the
lively-snow file manager.

The definitions below are shallow embeddings of:
  - the client upload coordinator (`src/app/components/FileUploader.tsx`):
    part codec, per-task state machine (`uploadNextPart`, `finalizeUpload`,
    `initiateUpload`), the global queue (`processQueue`, `cancelUpload`),
    and file admission (`processFiles`);
  - the client validation helper `validateFile` (lib utils);
  - the server completion route (`src/server/routes/upload/complete/index.ts`);
  - the server initiate route's part-count computation
    (`src/server/routes/upload/url/index.ts`);
  - the object-key helper `generateS3Key` (`src/server/utils/s3.ts`).

JavaScript numbers are modelled as naturals (all the quantities involved are
non-negative integers well within the exact range of doubles); `Math.ceil`
of an integer quotient is modelled as natural ceiling division.
-/

namespace LivelySnow

/-! ### Part codec (FileUploader.tsx lines 172-174, 342; url route line 281) -/

/-- Math.ceil(size / chunkSize) for naturals, as computed by `initiateUpload`
(client line 342) and the initiate route (`totalChunks`, server line 281).
Note there is no `max 1` clamp in the source. -/
def totalChunks (size chunkSize : Nat) : Nat :=
  (size + chunkSize - 1) / chunkSize

/-- start = (partNumber - 1) * chunkSizeInBytes (FileUploader.tsx line 172). -/
def partStart (partNumber chunkSize : Nat) : Nat :=
  (partNumber - 1) * chunkSize

/-- end = Math.min(start + chunkSizeInBytes, file.size) (FileUploader.tsx line 173). -/
def partEnd (partNumber chunkSize size : Nat) : Nat :=
  min (partStart partNumber chunkSize + chunkSize) size

/-- Modelled from the spec: `computeParts(sourceSize, partSize) =
max(1, ceil(sourceSize / partSize))` — the spec's contract for the part
codec, used to compare against the source's `totalChunks`. -/
def computePartsSpec (sourceSize partSize : Nat) : Nat :=
  max 1 ((sourceSize + partSize - 1) / partSize)

/-! ### Object key generation (src/server/utils/s3.ts lines 137-143) -/

/-- generateS3Key(userId, fileId, filename) returns `${userId}/${filename}`;
the `fileId` parameter is accepted but never used, exactly as in the source. -/
def generateS3Key (userId _fileId filename : String) : String :=
  userId ++ "/" ++ filename

/-! ### Basic part-codec lemmas -/

theorem totalChunks_zero (chunkSize : Nat) (h : 0 < chunkSize) :
    totalChunks 0 chunkSize = 0 := by
  unfold totalChunks
  exact Nat.div_eq_of_lt (by omega)

theorem totalChunks_pos_eq_spec (size chunkSize : Nat) (hc : 0 < chunkSize)
    (hs : 0 < size) : totalChunks size chunkSize = computePartsSpec size chunkSize := by
  unfold totalChunks computePartsSpec
  have h1 : 1 ≤ (size + chunkSize - 1) / chunkSize := by
    rw [Nat.one_le_div_iff hc]
    omega
  omega

/-! ### Claim C3 -/

/-- C3 counterexample: for an empty file (sourceSize = 0) and the default 5MB
part size, the part count computed at initiation is `Math.ceil(0 / partSize) = 0`,
not `max(1, ceil(0 / partSize)) = 1` as the claim states; so the total part
count is not at least 1 for an empty file. -/
theorem totalChunks_empty_file_cex :
    totalChunks 0 5242880 = 0 ∧ computePartsSpec 0 5242880 = 1 ∧
    totalChunks 0 5242880 ≠ computePartsSpec 0 5242880 := by
  refine ⟨by decide, by decide, by decide⟩

/-- C3 (amended): for every partSize > 0, the total part count computed at
initiation is plain `ceil(sourceSize / partSize)`; it agrees with
`max(1, ceil(sourceSize / partSize))` whenever sourceSize > 0, but is 0
(not 1) for an empty file. -/
theorem totalChunks_amended (size chunkSize : Nat) (hc : 0 < chunkSize) :
    totalChunks size chunkSize = (size + chunkSize - 1) / chunkSize ∧
    (0 < size → totalChunks size chunkSize = computePartsSpec size chunkSize) ∧
    totalChunks 0 chunkSize = 0 := by
  refine ⟨rfl, fun hs => totalChunks_pos_eq_spec size chunkSize hc hs,
    totalChunks_zero chunkSize hc⟩

/-- C3 witness: instantiating the amended claim at size 12, chunkSize 5. -/
theorem totalChunks_amended_witness :
    0 < 5 ∧ (totalChunks 12 5 = (12 + 5 - 1) / 5 ∧
      (0 < 12 → totalChunks 12 5 = computePartsSpec 12 5) ∧
      totalChunks 0 5 = 0) :=
  ⟨by decide, totalChunks_amended 12 5 (by decide)⟩

/-! ### Claim C5 -/

/-- C5: for every sourceSize and partSize > 0, each part's byte range is
[start, end) with start = (partNumber-1)*partSize and
end = min(start+partSize, sourceSize); a byte i lies below sourceSize iff it
lies in the range of some part between 1 and totalChunks (full coverage of
[0, sourceSize) with no gaps), and for p < q part p's range ends no later
than part q's begins (no overlaps). -/
theorem byteRange_cover (size chunkSize : Nat) (hc : 0 < chunkSize) :
    (∀ i, i < size ↔ ∃ p, 1 ≤ p ∧ p ≤ totalChunks size chunkSize ∧
      partStart p chunkSize ≤ i ∧ i < partEnd p chunkSize size) ∧
    (∀ p q, 1 ≤ p → p < q →
      partEnd p chunkSize size ≤ partStart q chunkSize) := by
  constructor
  · intro i
    constructor
    · intro hi
      refine ⟨i / chunkSize + 1, Nat.le_add_left 1 _, ?_, ?_, ?_⟩
      · have h1 : size + chunkSize - 1 = (size - 1) + chunkSize := by omega
        have h2 : totalChunks size chunkSize = (size - 1) / chunkSize + 1 := by
          unfold totalChunks
          rw [h1, Nat.add_div_right _ hc]
        have h3 : i / chunkSize ≤ (size - 1) / chunkSize :=
          Nat.div_le_div_right (by omega)
        rw [h2]
        exact Nat.add_le_add_right h3 1
      · unfold partStart
        simp only [Nat.add_sub_cancel]
        exact Nat.div_mul_le_self i chunkSize
      · unfold partEnd partStart
        simp only [Nat.add_sub_cancel]
        have hmod := Nat.div_add_mod i chunkSize
        have hlt : i % chunkSize < chunkSize := Nat.mod_lt i hc
        have hbound : i < i / chunkSize * chunkSize + chunkSize := by
          calc i = chunkSize * (i / chunkSize) + i % chunkSize := hmod.symm
            _ < chunkSize * (i / chunkSize) + chunkSize :=
              Nat.add_lt_add_left hlt _
            _ = i / chunkSize * chunkSize + chunkSize := by ring
        exact lt_min hbound hi
    · rintro ⟨p, _, _, _, hend⟩
      have : partEnd p chunkSize size ≤ size := Nat.min_le_right _ _
      omega
  · intro p q hp hpq
    unfold partEnd partStart
    have h1 : (p - 1) * chunkSize + chunkSize = p * chunkSize := by
      have : p - 1 + 1 = p := by omega
      calc (p - 1) * chunkSize + chunkSize = (p - 1 + 1) * chunkSize := by ring
        _ = p * chunkSize := by rw [this]
    have h2 : p * chunkSize ≤ (q - 1) * chunkSize :=
      Nat.mul_le_mul_right _ (by omega)
    calc min ((p - 1) * chunkSize + chunkSize) size
        ≤ (p - 1) * chunkSize + chunkSize := Nat.min_le_left _ _
      _ = p * chunkSize := h1
      _ ≤ (q - 1) * chunkSize := h2

/-- C5 witness: the coverage and disjointness statement at size 12, chunkSize 5. -/
theorem byteRange_cover_witness :
    0 < 5 ∧ ((∀ i, i < 12 ↔ ∃ p, 1 ≤ p ∧ p ≤ totalChunks 12 5 ∧
        partStart p 5 ≤ i ∧ i < partEnd p 5 12) ∧
      (∀ p q, 1 ≤ p → p < q → partEnd p 5 12 ≤ partStart q 5)) :=
  ⟨by decide, byteRange_cover 12 5 (by decide)⟩

/-! ### Claim C10 -/

/-- C10: generateS3Key(userId, fileId, filename) is userId ++ "/" ++ filename,
and the fileId argument has no effect: two uploads by the same user with equal
filenames get the identical object key. -/
theorem generateS3Key_ignores_fileId (userId filename : String) :
    generateS3Key userId "" filename = userId ++ "/" ++ filename ∧
    ∀ fid1 fid2 : String,
      generateS3Key userId fid1 filename = generateS3Key userId fid2 filename := by
  exact ⟨rfl, fun _ _ => rfl⟩

/-! ### Server completion route (src/server/routes/upload/complete/index.ts) -/

/-- One (partNumber, etag) pair as sent to the complete route and to S3. -/
structure PartInfo where
  partNumber : Nat
  etag : String
deriving DecidableEq, Repr

/-- Database row of the `files` table, restricted to the fields the upload
routes read or write. -/
structure DbFile where
  id : String
  user_id : String
  completed_at : Option Nat := none
  s3_key : Option String := none
  s3_upload_id : Option String := none
deriving DecidableEq, Repr

/-- Body of a complete request: uploadId plus the client's parts list. -/
structure CompleteReq where
  uploadId : String
  parts : List PartInfo
deriving DecidableEq, Repr

/-- Response of the complete route, tagged by HTTP status class. -/
inductive CompleteResp where
  | badRequest (msg : String)
  | notFound (msg : String)
  | forbidden (msg : String)
  | ok (fileId : String)
deriving DecidableEq, Repr

/-- One invocation of `completeMultipartUpload` against S3. -/
structure S3Call where
  key : String
  s3UploadId : String
  parts : List PartInfo
deriving DecidableEq, Repr

/-- Result of running the complete route: the HTTP response, the S3
complete calls it made, and the database afterwards. -/
structure CompleteOutcome where
  resp : CompleteResp
  s3Completes : List S3Call
  db : List DbFile
deriving DecidableEq, Repr

/-- Stable insertion of a part into a list sorted by partNumber. -/
def insertPart (p : PartInfo) : List PartInfo → List PartInfo
  | [] => [p]
  | q :: rest =>
    if p.partNumber ≤ q.partNumber then p :: q :: rest
    else q :: insertPart p rest

/-- parts.sort((a, b) => a.partNumber - b.partNumber) (complete route line 63),
modelled as a stable insertion sort by part number. -/
def sortParts : List PartInfo → List PartInfo
  | [] => []
  | p :: rest => insertPart p (sortParts rest)

/-- The sequential-validation loop of the complete route (lines 66-72):
walking the sorted parts, the i-th entry must have part number i+1; returns
the first error message, or none when the sequence is exactly 1..k. -/
def seqCheckFrom : Nat → List PartInfo → Option String
  | _, [] => none
  | n, p :: rest =>
    if p.partNumber = n then seqCheckFrom (n + 1) rest
    else some ("Invalid part number sequence. Expected " ++ toString n ++
      ", got " ++ toString p.partNumber)

/-- The complete route handler. `recordedTotal` is the `totalChunks` value the
initiate route stored in the server's in-memory upload metadata map for this
upload; the route never reads that map, which the unused parameter mirrors.
`now` is the timestamp used for `completed_at`. -/
def completeRoute (user : String) (now : Nat) (_recordedTotal : Option Nat)
    (db : List DbFile) (req : CompleteReq) : CompleteOutcome :=
  if req.uploadId = "" then
    ⟨.badRequest "uploadId and parts array are required", [], db⟩
  else if req.parts = [] then
    ⟨.badRequest "At least one part is required", [], db⟩
  else
    match db.find? (fun f => f.id == req.uploadId) with
    | none => ⟨.notFound "Upload not found", [], db⟩
    | some file =>
      if file.user_id ≠ user then ⟨.forbidden "Access denied", [], db⟩
      else if file.completed_at.isSome then
        ⟨.badRequest "Upload already completed", [], db⟩
      else
        match file.s3_key, file.s3_upload_id with
        | some key, some s3uid =>
          let sorted := sortParts req.parts
          match seqCheckFrom 1 sorted with
          | some msg => ⟨.badRequest msg, [], db⟩
          | none =>
            ⟨.ok file.id, [⟨key, s3uid, sorted⟩],
              db.map (fun f =>
                if f.id == file.id then
                  { f with completed_at := some now, s3_upload_id := none }
                else f)⟩
        | _, _ => ⟨.badRequest "S3 upload not properly initialized", [], db⟩

/-- If the sorted parts carry exactly the numbers n, n+1, ... then the
sequential-validation loop started at n accepts them. -/
theorem seqCheckFrom_of_range (ps : List PartInfo) :
    ∀ n, ps.map PartInfo.partNumber = List.range' n ps.length →
      seqCheckFrom n ps = none := by
  induction ps with
  | nil => intro n _; rfl
  | cons p rest ih =>
    intro n h
    simp only [List.map_cons, List.length_cons, List.range'_succ] at h
    obtain ⟨hp, hrest⟩ := List.cons.injEq _ _ _ _ ▸ h
    simp only [seqCheckFrom, hp, if_pos rfl]
    exact ih (n + 1) hrest

/-! ### Claim C7 -/

/-- C7: once an upload's row has `completed_at` set (its finalize already
succeeded), a second complete request for the same uploadId returns the
distinct "Upload already completed" error, invokes no S3 complete operation,
and leaves the database unchanged. -/
theorem complete_already_completed (user : String) (now t : Nat)
    (recTot : Option Nat) (db : List DbFile) (req : CompleteReq) (file : DbFile)
    (hid : req.uploadId ≠ "") (hparts : req.parts ≠ [])
    (hfind : db.find? (fun f => f.id == req.uploadId) = some file)
    (hown : file.user_id = user) (hdone : file.completed_at = some t) :
    (completeRoute user now recTot db req).resp =
      .badRequest "Upload already completed" ∧
    (completeRoute user now recTot db req).s3Completes = [] ∧
    (completeRoute user now recTot db req).db = db := by
  simp [completeRoute, hid, hparts, hfind, hown, hdone]

/-- C7 witness: a concrete second finalize on an already-completed upload. -/
theorem complete_already_completed_witness :
    let db : List DbFile :=
      [⟨"up1", "userA", some 5, some "userA/a.txt", none⟩]
    let req : CompleteReq := ⟨"up1", [⟨1, "etag1"⟩]⟩
    req.uploadId ≠ "" ∧ req.parts ≠ [] ∧
    ((completeRoute "userA" 9 (some 3) db req).resp =
        .badRequest "Upload already completed" ∧
      (completeRoute "userA" 9 (some 3) db req).s3Completes = [] ∧
      (completeRoute "userA" 9 (some 3) db req).db = db) :=
  ⟨by decide, by decide,
    complete_already_completed "userA" 9 5 (some 3) _ _
      ⟨"up1", "userA", some 5, some "userA/a.txt", none⟩
      (by decide) (by decide) (by decide) rfl rfl⟩

/-! ### Claim C9 -/

/-- C9: the complete route validates the submitted parts only against their
own length: whenever the sorted part numbers are exactly 1..k for some k ≥ 1,
the route completes the multipart upload even when k is strictly smaller than
the total part count recorded at initiation, and its outcome does not depend
on that recorded total at all. -/
theorem complete_ignores_recorded_total (user : String) (now k total : Nat)
    (db : List DbFile) (req : CompleteReq) (file : DbFile) (key s3uid : String)
    (hid : req.uploadId ≠ "") (hne : req.parts ≠ [])
    (hk : 1 ≤ k) (hkt : k < total)
    (hseq : (sortParts req.parts).map PartInfo.partNumber =
      List.range' 1 (sortParts req.parts).length)
    (hlen : (sortParts req.parts).length = k)
    (hfind : db.find? (fun f => f.id == req.uploadId) = some file)
    (hown : file.user_id = user) (hdone : file.completed_at = none)
    (hkey : file.s3_key = some key) (hsuid : file.s3_upload_id = some s3uid) :
    (completeRoute user now (some total) db req).resp = .ok file.id ∧
    (completeRoute user now (some total) db req).s3Completes =
      [⟨key, s3uid, sortParts req.parts⟩] ∧
    (∀ tot1 tot2 : Option Nat,
      completeRoute user now tot1 db req = completeRoute user now tot2 db req) := by
  have hchk : seqCheckFrom 1 (sortParts req.parts) = none :=
    seqCheckFrom_of_range (sortParts req.parts) 1 hseq
  simp [completeRoute, hid, hne, hfind, hown, hdone, hkey, hsuid, hchk]

/-- C9 witness: one part submitted while three were recorded at initiation;
the route still completes the upload. -/
theorem complete_ignores_recorded_total_witness :
    let db : List DbFile :=
      [⟨"up2", "userB", none, some "userB/b.bin", some "s3id2"⟩]
    let req : CompleteReq := ⟨"up2", [⟨1, "etagX"⟩]⟩
    req.uploadId ≠ "" ∧ req.parts ≠ [] ∧ 1 ≤ 1 ∧ 1 < 3 ∧
    ((completeRoute "userB" 7 (some 3) db req).resp = .ok "up2" ∧
      (completeRoute "userB" 7 (some 3) db req).s3Completes =
        [⟨"userB/b.bin", "s3id2", sortParts req.parts⟩] ∧
      (∀ tot1 tot2 : Option Nat,
        completeRoute "userB" 7 tot1 db req = completeRoute "userB" 7 tot2 db req)) :=
  ⟨by decide, by decide, by decide, by decide,
    complete_ignores_recorded_total "userB" 7 1 3 _ _
      ⟨"up2", "userB", none, some "userB/b.bin", some "s3id2"⟩
      "userB/b.bin" "s3id2"
      (by decide) (by decide) (by decide) (by decide)
      (by decide) (by decide) (by decide) rfl rfl rfl rfl⟩

/-! ### Client task model (src/app/components/FileUploader.tsx) -/

/-- The status values of a client upload entry (FileListItem's UploadStatus). -/
inductive UploadStatus where
  | idle
  | initiating
  | uploading
  | finalizing
  | completed
  | error
deriving DecidableEq, Repr

/-- One FileUploadEntry of the client uploader, restricted to the fields the
coordinator logic reads or writes (the `file` object is represented by its
name and size). -/
structure FileUploadEntry where
  id : String
  name : String := ""
  size : Nat := 0
  status : UploadStatus := .idle
  progress : Nat := 0
  speed : Nat := 0
  timeRemaining : String := ""
  error : Option String := none
  uploadId : Option String := none
  s3UploadId : Option String := none
  totalParts : Nat := 0
  currentPart : Nat := 0
  completedParts : List PartInfo := []
deriving DecidableEq, Repr

/-- xhr.onload success branch with an ETag present (FileUploader.tsx 238-258):
append (partNumber, etag) to completedParts and advance currentPart. -/
def onPartSuccess (partNumber : Nat) (etag : String)
    (f : FileUploadEntry) : FileUploadEntry :=
  { f with completedParts := f.completedParts ++ [⟨partNumber, etag⟩],
           currentPart := partNumber + 1 }

/-- xhr.onload failure branch (FileUploader.tsx 260-273): set error status. -/
def onUploadHttpFailure (statusText : String) (f : FileUploadEntry) : FileUploadEntry :=
  { f with status := .error, error := some ("Upload failed: " ++ statusText) }

/-- xhr.onerror handler (FileUploader.tsx 275-287): set error status. -/
def onXhrError (f : FileUploadEntry) : FileUploadEntry :=
  { f with status := .error, error := some "Upload error occurred" }

/-- The entry right after `initiateUpload` succeeds (FileUploader.tsx 344-359):
uploadId/s3UploadId recorded, totalParts = Math.ceil(size/chunkSize),
currentPart = 1, completedParts = [], status uploading. -/
def initEntry (idv name uploadId s3UploadId : String)
    (size chunkSize : Nat) : FileUploadEntry :=
  { id := idv, name := name, size := size, status := .uploading,
    uploadId := some uploadId, s3UploadId := some s3UploadId,
    totalParts := totalChunks size chunkSize, currentPart := 1,
    completedParts := [] }

/-- The per-task transitions of the serial part-transfer loop
(`uploadNextPart` / `finalizeUpload`): while uploading and
currentPart ≤ totalParts, the in-flight part is part `currentPart` and its
xhr resolves to success, HTTP failure, or network error; once currentPart
exceeds totalParts the task finalizes, which either completes or errors. -/
inductive TaskStep : FileUploadEntry → FileUploadEntry → Prop
  | partSuccess (f : FileUploadEntry) (etag : String)
      (hst : f.status = .uploading) (hle : f.currentPart ≤ f.totalParts) :
      TaskStep f (onPartSuccess f.currentPart etag f)
  | partHttpFailure (f : FileUploadEntry) (statusText : String)
      (hst : f.status = .uploading) (hle : f.currentPart ≤ f.totalParts) :
      TaskStep f (onUploadHttpFailure statusText f)
  | partNetworkError (f : FileUploadEntry)
      (hst : f.status = .uploading) (hle : f.currentPart ≤ f.totalParts) :
      TaskStep f (onXhrError f)
  | enterFinalizing (f : FileUploadEntry)
      (hst : f.status = .uploading) (hgt : f.totalParts < f.currentPart) :
      TaskStep f { f with status := .finalizing }
  | finalizeOk (f : FileUploadEntry) (hst : f.status = .finalizing) :
      TaskStep f { f with status := .completed, progress := 100 }
  | finalizeFail (f : FileUploadEntry) (msg : String)
      (hst : f.status = .finalizing) :
      TaskStep f { f with status := .error, error := some msg }

/-- States a task can be in, starting from a given entry, under TaskStep. -/
inductive Reachable (e0 : FileUploadEntry) : FileUploadEntry → Prop
  | refl : Reachable e0 e0
  | step {f g : FileUploadEntry} :
      Reachable e0 f → TaskStep f g → Reachable e0 g

/-! ### Claim C1 -/

/-- C1 counterexample: for a freshly initiated 12-byte upload with 5-byte
parts, a single network error during part 1's transfer is a TaskStep of the
code that moves the task from uploading straight to the error status — the
task state changes on the first transient failure, the same part-transfer
step is not re-entered, and no retry budget (of 3 or any other bound) exists. -/
theorem part_failure_no_retry_cex :
    (initEntry "f1" "a.bin" "u1" "s1" 12 5).status = .uploading ∧
    TaskStep (initEntry "f1" "a.bin" "u1" "s1" 12 5)
      (onXhrError (initEntry "f1" "a.bin" "u1" "s1" 12 5)) ∧
    (onXhrError (initEntry "f1" "a.bin" "u1" "s1" 12 5)).status = .error ∧
    (onXhrError (initEntry "f1" "a.bin" "u1" "s1" 12 5)).status ≠
      (initEntry "f1" "a.bin" "u1" "s1" 12 5).status :=
  ⟨rfl, TaskStep.partNetworkError _ rfl (by decide), rfl, by decide⟩

/-- C1 (amended): a part-level transient failure (network error or non-2xx
response) during a part's transfer immediately transitions the task to the
error status without retrying the part: every step out of a Transferring
(uploading) state either records the current part's success and advances to
the next part, enters finalizing, or moves to error leaving currentPart and
completedParts unchanged — no step re-enters the same part transfer, and
there is no bounded retry count before escalation. -/
theorem transient_failure_immediate_error (f g : FileUploadEntry)
    (hst : f.status = .uploading) (h : TaskStep f g) :
    (g.status = .uploading ∧ g.currentPart = f.currentPart + 1 ∧
      ∃ etag, g.completedParts = f.completedParts ++ [⟨f.currentPart, etag⟩]) ∨
    (g.status = .finalizing ∧ g.currentPart = f.currentPart ∧
      g.completedParts = f.completedParts) ∨
    (g.status = .error ∧ g.currentPart = f.currentPart ∧
      g.completedParts = f.completedParts) := by
  cases h with
  | partSuccess etag hst2 hle => exact Or.inl ⟨hst, rfl, etag, rfl⟩
  | partHttpFailure statusText hst2 hle => exact Or.inr (Or.inr ⟨rfl, rfl, rfl⟩)
  | partNetworkError hst2 hle => exact Or.inr (Or.inr ⟨rfl, rfl, rfl⟩)
  | enterFinalizing hst2 hgt => exact Or.inr (Or.inl ⟨rfl, rfl, rfl⟩)
  | finalizeOk hfin => simp [hst] at hfin
  | finalizeFail msg hfin => simp [hst] at hfin

/-- C1 witness: the amended claim instantiated at the network-error step of a
concrete freshly initiated task. -/
theorem transient_failure_immediate_error_witness :
    (initEntry "f1" "a.bin" "u1" "s1" 12 5).status = .uploading ∧
    (((onXhrError (initEntry "f1" "a.bin" "u1" "s1" 12 5)).status = .uploading ∧
        (onXhrError (initEntry "f1" "a.bin" "u1" "s1" 12 5)).currentPart =
          (initEntry "f1" "a.bin" "u1" "s1" 12 5).currentPart + 1 ∧
        ∃ etag, (onXhrError (initEntry "f1" "a.bin" "u1" "s1" 12 5)).completedParts =
          (initEntry "f1" "a.bin" "u1" "s1" 12 5).completedParts ++
            [⟨(initEntry "f1" "a.bin" "u1" "s1" 12 5).currentPart, etag⟩]) ∨
      ((onXhrError (initEntry "f1" "a.bin" "u1" "s1" 12 5)).status = .finalizing ∧
        (onXhrError (initEntry "f1" "a.bin" "u1" "s1" 12 5)).currentPart =
          (initEntry "f1" "a.bin" "u1" "s1" 12 5).currentPart ∧
        (onXhrError (initEntry "f1" "a.bin" "u1" "s1" 12 5)).completedParts =
          (initEntry "f1" "a.bin" "u1" "s1" 12 5).completedParts) ∨
      ((onXhrError (initEntry "f1" "a.bin" "u1" "s1" 12 5)).status = .error ∧
        (onXhrError (initEntry "f1" "a.bin" "u1" "s1" 12 5)).currentPart =
          (initEntry "f1" "a.bin" "u1" "s1" 12 5).currentPart ∧
        (onXhrError (initEntry "f1" "a.bin" "u1" "s1" 12 5)).completedParts =
          (initEntry "f1" "a.bin" "u1" "s1" 12 5).completedParts)) :=
  ⟨rfl, transient_failure_immediate_error _ _ rfl
    (TaskStep.partNetworkError _ rfl (by decide))⟩

/-! ### Claim C4 -/

/-- C4: in every task state reachable from a freshly initiated entry, the
completedParts list is exactly the ascending contiguous sequence of parts
1..k for some k ≤ totalParts (no duplicates), and the next part to transfer
is k+1 — part k+1's transfer never starts before part k's completion is
recorded, since the in-flight part of a TaskStep is always currentPart. -/
theorem completedParts_contiguous (idv name uploadId s3UploadId : String)
    (size chunkSize : Nat) (f : FileUploadEntry)
    (h : Reachable (initEntry idv name uploadId s3UploadId size chunkSize) f) :
    f.completedParts.map PartInfo.partNumber =
      List.range' 1 f.completedParts.length ∧
    f.currentPart = f.completedParts.length + 1 ∧
    f.completedParts.length ≤ f.totalParts ∧
    (f.completedParts.map PartInfo.partNumber).Nodup := by
  have main : f.completedParts.map PartInfo.partNumber =
      List.range' 1 f.completedParts.length ∧
      f.currentPart = f.completedParts.length + 1 ∧
      f.completedParts.length ≤ f.totalParts := by
    induction h with
    | refl => exact ⟨rfl, rfl, Nat.zero_le _⟩
    | step hr hs ih =>
      obtain ⟨h1, h2, h3⟩ := ih
      cases hs with
      | partSuccess etag hst hle =>
        refine ⟨?_, ?_, ?_⟩
        · simp only [onPartSuccess, List.map_append, List.map_cons,
            List.map_nil, List.length_append, List.length_cons, List.length_nil]
          rw [h1, h2, List.range'_1_concat]
          simp [Nat.add_comm]
        · simp only [onPartSuccess, List.length_append, List.length_cons,
            List.length_nil]
          omega
        · simp only [onPartSuccess, List.length_append, List.length_cons,
            List.length_nil]
          omega
      | partHttpFailure statusText hst hle => exact ⟨h1, h2, h3⟩
      | partNetworkError hst hle => exact ⟨h1, h2, h3⟩
      | enterFinalizing hst hgt => exact ⟨h1, h2, h3⟩
      | finalizeOk hst => exact ⟨h1, h2, h3⟩
      | finalizeFail msg hst => exact ⟨h1, h2, h3⟩
  refine ⟨main.1, main.2.1, main.2.2, ?_⟩
  rw [main.1]
  exact List.nodup_range' 1 _

/-- C4 witness: after initiation and one successful part transfer of a
12-byte file in 5-byte parts, the invariant holds at the concrete state. -/
theorem completedParts_contiguous_witness :
    ((onPartSuccess 1 "etagA" (initEntry "f1" "a.bin" "u1" "s1" 12 5)).completedParts.map
        PartInfo.partNumber =
      List.range' 1 (onPartSuccess 1 "etagA"
        (initEntry "f1" "a.bin" "u1" "s1" 12 5)).completedParts.length ∧
    (onPartSuccess 1 "etagA" (initEntry "f1" "a.bin" "u1" "s1" 12 5)).currentPart =
      (onPartSuccess 1 "etagA"
        (initEntry "f1" "a.bin" "u1" "s1" 12 5)).completedParts.length + 1 ∧
    (onPartSuccess 1 "etagA"
        (initEntry "f1" "a.bin" "u1" "s1" 12 5)).completedParts.length ≤
      (onPartSuccess 1 "etagA" (initEntry "f1" "a.bin" "u1" "s1" 12 5)).totalParts ∧
    ((onPartSuccess 1 "etagA" (initEntry "f1" "a.bin" "u1" "s1" 12 5)).completedParts.map
        PartInfo.partNumber).Nodup) :=
  completedParts_contiguous "f1" "a.bin" "u1" "s1" 12 5 _
    (Reachable.step Reachable.refl
      (TaskStep.partSuccess (initEntry "f1" "a.bin" "u1" "s1" 12 5) "etagA"
        rfl (by decide)))

/-! ### Global coordinator state (FileUploader.tsx refs and queue logic) -/

/-- The uploader's cross-task state: the `files` array, the
`pendingUploadsRef` FIFO of queued task ids, the `activeUploadsCountRef`
counter, and the list of abort requests sent to the abort endpoint. -/
structure UploaderState where
  files : List FileUploadEntry
  pendingUploads : List String
  activeUploadsCount : Nat
  abortRequests : List (String × String)
deriving DecidableEq, Repr

/-- setFiles mapping one entry to error status (the error paths of
`uploadNextPart` and of `finalizeUpload`'s catch). -/
def setEntryError (fileId msg : String)
    (fs : List FileUploadEntry) : List FileUploadEntry :=
  fs.map fun f =>
    if f.id == fileId then { f with status := .error, error := some msg } else f

/-- setFiles mapping one entry to completed status with progress 100
(`finalizeUpload` success, FileUploader.tsx 105-111). -/
def markCompleted (fileId : String)
    (fs : List FileUploadEntry) : List FileUploadEntry :=
  fs.map fun f =>
    if f.id == fileId then { f with status := .completed, progress := 100 } else f

/-- processQueue (FileUploader.tsx 403-419): when below the concurrency
ceiling and the queue is non-empty, pop the head id; if that entry exists
and is idle, claim a slot and start initiating it; otherwise the id is
consumed with no other effect. -/
def processQueue (maxConc : Nat) (s : UploaderState) : UploaderState :=
  if maxConc ≤ s.activeUploadsCount then s
  else
    match s.pendingUploads with
    | [] => s
    | fid :: rest =>
      match s.files.find? (fun f => f.id == fid) with
      | some f =>
        if f.status = .idle then
          { s with pendingUploads := rest,
                   activeUploadsCount := s.activeUploadsCount + 1,
                   files := s.files.map fun g =>
                     if g.id == fid then { g with status := .initiating } else g }
        else { s with pendingUploads := rest }
      | none => { s with pendingUploads := rest }

/-- A part-transfer error observed at the coordinator level (the xhr.onerror
and non-2xx handlers, FileUploader.tsx 260-287, and `initiateUpload`'s catch):
only setFiles runs — activeUploadsCount, the pending queue and the abort list
are untouched and processQueue is not invoked. -/
def uploadPartError (fileId msg : String) (s : UploaderState) : UploaderState :=
  { s with files := setEntryError fileId msg s.files }

/-- finalizeUpload success path (FileUploader.tsx 105-138): mark completed,
decrement activeUploadsCount (Math.max(0, n-1), i.e. truncated subtraction),
then processQueue via the zero-delay timeout. -/
def finalizeUploadOk (maxConc : Nat) (fileId : String)
    (s : UploaderState) : UploaderState :=
  processQueue maxConc
    { s with files := markCompleted fileId s.files,
             activeUploadsCount := s.activeUploadsCount - 1 }

/-- finalizeUpload catch branch (FileUploader.tsx 139-152): only setFiles to
error — no decrement, no processQueue. -/
def finalizeUploadFail (fileId msg : String) (s : UploaderState) : UploaderState :=
  { s with files := setEntryError fileId msg s.files }

/-- cancelUpload (FileUploader.tsx 442-489): abort in-flight xhrs, POST to the
abort endpoint when the entry has uploadId and s3UploadId, drop the id from
the pending queue, remove the entry from files, decrement
activeUploadsCount (floored at 0), then processQueue. No status check is
performed on the entry. -/
def cancelUpload (maxConc : Nat) (fileId : String)
    (s : UploaderState) : UploaderState :=
  let entry := s.files.find? (fun f => f.id == fileId)
  let aborts :=
    match entry with
    | some f =>
      match f.uploadId, f.s3UploadId with
      | some u, some su => s.abortRequests ++ [(u, su)]
      | _, _ => s.abortRequests
    | none => s.abortRequests
  processQueue maxConc
    { s with files := s.files.filter (fun f => !(f.id == fileId)),
             pendingUploads := s.pendingUploads.erase fileId,
             activeUploadsCount := s.activeUploadsCount - 1,
             abortRequests := aborts }

/-- processQueue is the identity when the pending queue is empty. -/
theorem processQueue_nil (maxConc : Nat) (s : UploaderState)
    (h : s.pendingUploads = []) : processQueue maxConc s = s := by
  unfold processQueue
  rw [h]
  split <;> rfl

/-- Filtering out an id that no entry carries leaves the files unchanged. -/
theorem filter_eq_of_find?_none (fileId : String) (fs : List FileUploadEntry)
    (h : fs.find? (fun f => f.id == fileId) = none) :
    fs.filter (fun f => !(f.id == fileId)) = fs := by
  induction fs with
  | nil => rfl
  | cons a rest ih =>
    rw [List.find?_cons] at h
    cases hpa : (a.id == fileId) with
    | true => rw [hpa] at h; exact absurd h (by simp)
    | false =>
      rw [hpa] at h
      simp [List.filter_cons, hpa, ih h]

/-- After filtering an id out, no entry with that id can be found. -/
theorem find?_filter_self_none (fileId : String) (fs : List FileUploadEntry) :
    (fs.filter (fun f => !(f.id == fileId))).find?
      (fun f => f.id == fileId) = none := by
  induction fs with
  | nil => rfl
  | cons a rest ih =>
    cases hpa : (a.id == fileId) with
    | true => simp [List.filter_cons, hpa, ih]
    | false => simp [List.filter_cons, List.find?_cons, hpa, ih]

/-! ### Claim C2 -/

/-- Concrete uploading entry used in the C2 scenario. -/
def e1Uploading : FileUploadEntry :=
  { id := "f1", status := .uploading }

/-- Concrete idle queued entry used in the C2 scenario. -/
def e2Idle : FileUploadEntry :=
  { id := "f2", status := .idle }

/-- Concrete coordinator state: f1 active and uploading, f2 queued idle,
one admission slot taken. -/
def s0Queued : UploaderState :=
  ⟨[e1Uploading, e2Idle], ["f2"], 1, []⟩

/-- C2 counterexample: a concrete state with task f1 uploading, task f2
queued idle, one active slot taken and capacity 3: when f1's part transfer
errors (entering the error state), activeUploadsCount stays 1 and the queue
still holds f2 — the slot is not released and no queued task is admitted,
even though the transition went to a failed state. -/
theorem error_keeps_slot_cex :
    (uploadPartError "f1" "Upload error occurred" s0Queued).files =
      [onXhrError e1Uploading, e2Idle] ∧
    (uploadPartError "f1" "Upload error occurred" s0Queued).activeUploadsCount = 1 ∧
    (uploadPartError "f1" "Upload error occurred" s0Queued).pendingUploads = ["f2"] ∧
    (uploadPartError "f1" "Upload error occurred" s0Queued).abortRequests = [] := by
  refine ⟨by decide, by decide, by decide, by decide⟩

/-- C2 (amended): the coordinator decrements activeUploadsCount and
immediately attempts FIFO admission only on the finalize-success transition
to Completed and on cancellation; a transition into the error state — part
failure or finalize failure — leaves activeUploadsCount and the pending queue
unchanged, so a task that enters the error state never releases its
admission slot. -/
theorem slot_release_amended (maxConc : Nat) (s : UploaderState)
    (fileId msg : String) (hpend : s.pendingUploads = []) :
    (uploadPartError fileId msg s).activeUploadsCount = s.activeUploadsCount ∧
    (uploadPartError fileId msg s).pendingUploads = s.pendingUploads ∧
    (finalizeUploadFail fileId msg s).activeUploadsCount = s.activeUploadsCount ∧
    (finalizeUploadFail fileId msg s).pendingUploads = s.pendingUploads ∧
    (finalizeUploadOk maxConc fileId s).activeUploadsCount =
      s.activeUploadsCount - 1 ∧
    (cancelUpload maxConc fileId s).activeUploadsCount =
      s.activeUploadsCount - 1 := by
  refine ⟨rfl, rfl, rfl, rfl, ?_, ?_⟩
  · unfold finalizeUploadOk
    rw [processQueue_nil _ _ (by simpa using hpend)]
  · unfold cancelUpload
    rw [processQueue_nil _ _ (by simp [hpend])]

/-- Concrete coordinator state with one active upload and empty queue. -/
def s0NoQueue : UploaderState :=
  ⟨[e1Uploading], [], 1, []⟩

/-- C2 witness: the amended claim instantiated at a concrete state with an
empty pending queue. -/
theorem slot_release_amended_witness :
    s0NoQueue.pendingUploads = [] ∧
    ((uploadPartError "f1" "boom" s0NoQueue).activeUploadsCount =
        s0NoQueue.activeUploadsCount ∧
      (uploadPartError "f1" "boom" s0NoQueue).pendingUploads =
        s0NoQueue.pendingUploads ∧
      (finalizeUploadFail "f1" "boom" s0NoQueue).activeUploadsCount =
        s0NoQueue.activeUploadsCount ∧
      (finalizeUploadFail "f1" "boom" s0NoQueue).pendingUploads =
        s0NoQueue.pendingUploads ∧
      (finalizeUploadOk 3 "f1" s0NoQueue).activeUploadsCount =
        s0NoQueue.activeUploadsCount - 1 ∧
      (cancelUpload 3 "f1" s0NoQueue).activeUploadsCount =
        s0NoQueue.activeUploadsCount - 1) :=
  ⟨rfl, slot_release_amended 3 _ "f1" "boom" rfl⟩

/-! ### Claim C6 -/

/-- Concrete completed entry that is still visible in the task list. -/
def e1Completed : FileUploadEntry :=
  { id := "f1", status := .completed, uploadId := some "u1",
    s3UploadId := some "s1" }

/-- Concrete coordinator state holding only the completed task. -/
def s0Completed : UploaderState :=
  ⟨[e1Completed], [], 1, []⟩

/-- C6 counterexample: cancelling a task that is already Completed is not a
no-op: at a concrete state with one completed entry carrying its uploadId and
s3UploadId, cancelUpload removes the entry from the visible set, issues an
abort request for it, and decrements activeUploadsCount. -/
theorem cancel_completed_not_noop_cex :
    (cancelUpload 3 "f1" s0Completed).files = [] ∧
    (cancelUpload 3 "f1" s0Completed).abortRequests = [("u1", "s1")] ∧
    (cancelUpload 3 "f1" s0Completed).activeUploadsCount = 0 ∧
    cancelUpload 3 "f1" s0Completed ≠ s0Completed := by
  refine ⟨by decide, by decide, by decide, by decide⟩

/-- C6 (amended): cancelUpload never checks the task's state. Called on a
still-visible Completed task it removes the task from the visible set, issues
an abort request for its upload, and decrements activeUploadsCount; called on
an id that is no longer in the task set (e.g. an already-cancelled task) it
leaves the task set and abort requests unchanged but still decrements
activeUploadsCount (floored at 0) and reprocesses the queue. No error is
raised in either case. -/
theorem cancel_not_idempotent_amended (maxConc : Nat) (s : UploaderState)
    (f : FileUploadEntry) (u su : String)
    (hfind : s.files.find? (fun g => g.id == f.id) = some f)
    (hcomp : f.status = .completed)
    (hu : f.uploadId = some u) (hsu : f.s3UploadId = some su)
    (hpend : s.pendingUploads = []) :
    ((cancelUpload maxConc f.id s).files.find?
        (fun g => g.id == f.id) = none ∧
      (cancelUpload maxConc f.id s).abortRequests =
        s.abortRequests ++ [(u, su)] ∧
      (cancelUpload maxConc f.id s).activeUploadsCount =
        s.activeUploadsCount - 1) ∧
    (∀ fid, s.files.find? (fun g => g.id == fid) = none →
      (cancelUpload maxConc fid s).files = s.files ∧
      (cancelUpload maxConc fid s).abortRequests = s.abortRequests ∧
      (cancelUpload maxConc fid s).activeUploadsCount =
        s.activeUploadsCount - 1) := by
  constructor
  · unfold cancelUpload
    rw [processQueue_nil _ _ (by simp [hpend])]
    simp [hfind, hu, hsu, find?_filter_self_none]
  · intro fid hnone
    unfold cancelUpload
    rw [processQueue_nil _ _ (by simp [hpend])]
    simp [hnone, filter_eq_of_find?_none fid s.files hnone]

/-- C6 witness: the amended claim instantiated at a concrete state holding
one completed task. -/
theorem cancel_not_idempotent_amended_witness :
    s0Completed.files.find? (fun g => g.id == e1Completed.id) =
      some e1Completed ∧
    s0Completed.pendingUploads = [] ∧
    (((cancelUpload 3 e1Completed.id s0Completed).files.find?
          (fun g => g.id == e1Completed.id) = none ∧
        (cancelUpload 3 e1Completed.id s0Completed).abortRequests =
          s0Completed.abortRequests ++ [("u1", "s1")] ∧
        (cancelUpload 3 e1Completed.id s0Completed).activeUploadsCount =
          s0Completed.activeUploadsCount - 1) ∧
      (∀ fid, s0Completed.files.find? (fun g => g.id == fid) = none →
        (cancelUpload 3 fid s0Completed).files = s0Completed.files ∧
        (cancelUpload 3 fid s0Completed).abortRequests =
          s0Completed.abortRequests ∧
        (cancelUpload 3 fid s0Completed).activeUploadsCount =
          s0Completed.activeUploadsCount - 1)) :=
  ⟨by decide, rfl,
    cancel_not_idempotent_amended 3 s0Completed e1Completed "u1" "s1"
      (by decide) rfl rfl rfl rfl⟩

/-! ### File admission and validation (processFiles, validateFile) -/

/-- A File object as the uploader sees it: name, size and MIME type. -/
structure BrowserFile where
  name : String
  size : Nat
  mimeType : String
deriving DecidableEq, Repr

/-- Result of validateFile. -/
structure ValidationResult where
  isValid : Bool
  error : Option String := none
deriving DecidableEq, Repr

/-- validateFile from the client lib utils (lines 141-172): reject when the
size exceeds maxSizeInMB megabytes, then — unless the allowed-type list is
absent or empty — reject when no allowed type is a prefix of the file's MIME
type. `formatSize` abstracts the source's formatFileSize pretty-printer
(floating-point toFixed formatting), which only affects the message text. -/
def validateFile (formatSize : Nat → String) (file : BrowserFile)
    (maxSizeInMB : Nat) (allowedFileTypes : Option (List String)) :
    ValidationResult :=
  let maxSizeInBytes := maxSizeInMB * 1024 * 1024
  if maxSizeInBytes < file.size then
    ⟨false, some ("File '" ++ file.name ++ "' is too large. Maximum size is "
      ++ formatSize maxSizeInBytes ++ ".")⟩
  else
    match allowedFileTypes with
    | none => ⟨true, none⟩
    | some [] => ⟨true, none⟩
    | some types =>
      if types.any (fun t => file.mimeType.startsWith t) then ⟨true, none⟩
      else ⟨false, some ("File type not allowed for '" ++ file.name
        ++ "'. Allowed types: " ++ String.intercalate ", " types)⟩

/-- The FileUploadEntry created for a valid file (FileUploader.tsx 531-538):
idle status, zero progress and speed, empty time remaining. -/
def mkEntry (idv : String) (f : BrowserFile) : FileUploadEntry :=
  { id := idv, name := f.name, size := f.size, status := .idle,
    progress := 0, speed := 0, timeRemaining := "" }

/-- What one processFiles call produces: the entries appended to `files`,
the ids pushed onto pendingUploadsRef, and the final errorMessage. -/
structure ProcessResult where
  newEntries : List FileUploadEntry
  pendingAdds : List String
  errorMessage : Option String
deriving DecidableEq, Repr

/-- processFiles (FileUploader.tsx 518-548): validate each file; an invalid
file sets the error message (last one wins) and creates nothing; a valid
file gets a fresh id (`mkId` abstracts createFileId's timestamp+random id,
indexed by the number of entries created so far) and an idle entry queued
for upload. -/
def processFiles (formatSize : Nat → String) (maxSizeInMB : Nat)
    (allowedFileTypes : Option (List String)) (mkId : Nat → String) :
    Nat → List BrowserFile → ProcessResult
  | _, [] => ⟨[], [], none⟩
  | idx, f :: rest =>
    let v := validateFile formatSize f maxSizeInMB allowedFileTypes
    if v.isValid then
      let e := mkEntry (mkId idx) f
      let r := processFiles formatSize maxSizeInMB allowedFileTypes mkId
        (idx + 1) rest
      ⟨e :: r.newEntries, e.id :: r.pendingAdds, r.errorMessage⟩
    else
      let r := processFiles formatSize maxSizeInMB allowedFileTypes mkId idx rest
      match r.errorMessage with
      | some m => ⟨r.newEntries, r.pendingAdds, some m⟩
      | none => ⟨r.newEntries, r.pendingAdds,
          some (v.error.getD "File validation failed")⟩

/-! ### Claim C8 -/

/-- C8: processFiles admits exactly the files validateFile accepts: the new
entries correspond one-to-one (name and size) to the valid input files, every
created entry is an Idle task, no entry is created for an invalid file, and
the synchronous validation error message is set if and only if some input
file is invalid. -/
theorem processFiles_validation (formatSize : Nat → String) (maxSizeInMB : Nat)
    (allowedFileTypes : Option (List String)) (mkId : Nat → String) (idx : Nat)
    (fs : List BrowserFile) :
    (processFiles formatSize maxSizeInMB allowedFileTypes mkId idx
        fs).newEntries.map (fun e => (e.name, e.size)) =
      (fs.filter (fun f =>
        (validateFile formatSize f maxSizeInMB allowedFileTypes).isValid)).map
        (fun f => (f.name, f.size)) ∧
    (∀ e ∈ (processFiles formatSize maxSizeInMB allowedFileTypes mkId idx
        fs).newEntries, e.status = .idle) ∧
    ((processFiles formatSize maxSizeInMB allowedFileTypes mkId idx
        fs).errorMessage = none ↔
      ∀ f ∈ fs,
        (validateFile formatSize f maxSizeInMB allowedFileTypes).isValid = true) := by
  induction fs generalizing idx with
  | nil => simp [processFiles]
  | cons f rest ih =>
    obtain ⟨ih1, ih2, ih3⟩ := ih (idx + 1)
    obtain ⟨jh1, jh2, jh3⟩ := ih idx
    by_cases hv :
        (validateFile formatSize f maxSizeInMB allowedFileTypes).isValid = true
    · refine ⟨?_, ?_, ?_⟩
      · simp [processFiles, hv, mkEntry, ih1, List.filter_cons]
      · intro e he
        simp only [processFiles, hv, if_pos rfl] at he
        rcases List.mem_cons.mp he with h | h
        · rw [h]; rfl
        · exact ih2 e h
      · simp [processFiles, hv, ih3]
    · have hv' :
          (validateFile formatSize f maxSizeInMB allowedFileTypes).isValid = false := by
        revert hv
        cases (validateFile formatSize f maxSizeInMB allowedFileTypes).isValid <;> simp
      refine ⟨?_, ?_, ?_⟩
      · cases hr : (processFiles formatSize maxSizeInMB allowedFileTypes mkId
            idx rest).errorMessage with
        | some m => simpa [processFiles, hv', hr, List.filter_cons] using jh1
        | none => simpa [processFiles, hv', hr, List.filter_cons] using jh1
      · intro e he
        apply jh2 e
        cases hr : (processFiles formatSize maxSizeInMB allowedFileTypes mkId
            idx rest).errorMessage with
        | some m => simpa [processFiles, hv', hr] using he
        | none => simpa [processFiles, hv', hr] using he
      · cases hr : (processFiles formatSize maxSizeInMB allowedFileTypes mkId
            idx rest).errorMessage with
        | some m => simp [processFiles, hv', hr]
        | none => simp [processFiles, hv', hr]

end LivelySnow
